import Mathlib

/-!
Verification of the retrieval engine of the nasa_project repository.

The retrieval core recurs across several near-duplicate variants:
`AI/dynamic_chatbot.py`, `AI/simple_chatbot.py`, `AI/nasa_chatbot.py`,
`nasa-ai-model/rag_system.py`, `nasa-ai-model/hybrid_nasa_ai.py`,
`nasa-ai-model/app_lightweight.py`, plus context assembly in
`cursor-back/main.py` and corpus loading in `nasa-ai-model/data_loader.py`.

Modelling conventions:
* Embedding vectors are lists of rationals (`Vec`); the sentence-embedding
  model is an abstract parameter `encode : String → Vec` (the external
  `SentenceTransformer`), covering `model.encode` composed with any
  `faiss.normalize_L2` applied to its output (L2 normalisation is a
  library call on the embedder's output and involves irrational square
  roots, so it is folded into the abstract encoder).
* `faiss.IndexFlatIP.search(q, k)` enforces `FAISS_THROW_IF_NOT(k > 0)`
  (a `RuntimeError` at `k = 0`); for `k > 0` it returns arrays of length
  exactly `k`, holding the stored vectors' labels sorted by decreasing
  inner product; when `k` exceeds `ntotal` the tail is padded with label
  `-1` and distance `-FLT_MAX`.
* Python list subscription `xs[i]` allows negative indices counting from
  the end; an out-of-range access raises `IndexError`, modelled by
  `Option` (`none` = an uncaught Python exception escapes the function).
-/

/-- An embedding vector: a list of rational coordinates. -/
abbrev Vec : Type := List ℚ

/-- Inner product of two vectors (`faiss.IndexFlatIP` similarity). -/
def dot (a b : Vec) : ℚ := (List.zipWith (· * ·) a b).sum

/-- `-FLT_MAX`, the distance FAISS reports for padding slots when fewer
than `k` results exist (`k > ntotal`).  `FLT_MAX = 2^128 - 2^104`. -/
def negFltMax : ℚ := -(2 ^ 128 - 2 ^ 104)

/-- Pair each stored similarity with its integer label, starting at `i`. -/
def idxPairsFrom (i : ℤ) : List ℚ → List (ℚ × ℤ)
  | [] => []
  | s :: rest => (s, i) :: idxPairsFrom (i + 1) rest

/-- Ordering used to sort hits: by decreasing similarity.  The sort is
stable, so equal scores keep ascending label order. -/
def hitRel (a b : ℚ × ℤ) : Prop := b.1 ≤ a.1

instance : DecidableRel hitRel := fun a b => inferInstanceAs (Decidable (b.1 ≤ a.1))

instance : IsTotal (ℚ × ℤ) hitRel := ⟨fun a b => le_total b.1 a.1⟩

instance : IsTrans (ℚ × ℤ) hitRel := ⟨fun _ _ _ h1 h2 => le_trans h2 h1⟩

/-- The hit arrays `index.search(query, k)` fills for a flat
inner-product index holding `stored` when `k > 0`: the `(score, label)`
pairs of the `min k ntotal` nearest stored vectors in decreasing-score
order, padded to length `k` with `(-FLT_MAX, -1)`. -/
def faissHits (stored : List Vec) (q : Vec) (k : ℕ) : List (ℚ × ℤ) :=
  let sims := stored.map (fun v => dot q v)
  (List.insertionSort hitRel (idxPairsFrom 0 sims)).take k
    ++ List.replicate (k - stored.length) (negFltMax, -1)

/-- `index.search(query, k)`: faiss's `Index::search` enforces
`FAISS_THROW_IF_NOT(k > 0)`, so `k = 0` raises `RuntimeError` (`none`);
for `k > 0` it returns the hit arrays of `faissHits`. -/
def faissSearch (stored : List Vec) (q : Vec) (k : ℕ) : Option (List (ℚ × ℤ)) :=
  if k = 0 then none else some (faissHits stored q k)

/-- Python list subscription `xs[i]`: non-negative indices from the
front, negative indices from the back; `none` when out of range
(Python raises `IndexError`). -/
def pyGet {α : Type} (xs : List α) (i : ℤ) : Option α :=
  if 0 ≤ i then xs.get? i.toNat
  else if 0 ≤ i + xs.length then xs.get? (i + xs.length).toNat
  else none

/-- A corpus chunk as loaded by the `AI/` chatbots (`dynamic_chatbot.py`,
`simple_chatbot.py`, `nasa_chatbot.py`): the chunk text plus a free-form
metadata mapping. -/
structure AiChunk where
  chunk : String
  metadata : List (String × String)
deriving DecidableEq, Repr

/-- A search result produced by the `AI/` chatbots' `search_chunks` /
`NASAChatbot.search`. -/
structure AiResult where
  chunk : String
  metadata : List (String × String)
  score : ℚ
  rank : ℕ
deriving DecidableEq, Repr

namespace DynamicChatbot

/-- The result-construction loop of `search_chunks`
(`AI/dynamic_chatbot.py`, lines 86-95; the identical loop appears in
`AI/simple_chatbot.py` and `AI/nasa_chatbot.py`):
`for i, (score, idx) in enumerate(zip(scores[0], indices[0])):`
`    if idx < len(chunks): results.append({..., 'rank': i + 1})`.
`i` counts raw hits (skipped hits leave rank gaps).  `chunks[idx]`
raises `IndexError` when `idx < -len(chunks)` (`none`). -/
def buildResults (chunks : List AiChunk) : ℕ → List (ℚ × ℤ) → Option (List AiResult)
  | _, [] => some []
  | i, (score, idx) :: rest =>
    if idx < (chunks.length : ℤ) then
      match pyGet chunks idx with
      | some c => (buildResults chunks (i + 1) rest).map
          (fun rs => ⟨c.chunk, c.metadata, score, i + 1⟩ :: rs)
      | none => none
    else buildResults chunks (i + 1) rest

/-- `search_chunks(query, top_k)` from `AI/dynamic_chatbot.py` lines
80-95: encode the query, search the index, keep hits whose label passes
`idx < len(chunks)`, ranking by raw hit position. -/
def search_chunks (encode : String → Vec) (index : List Vec)
    (chunks : List AiChunk) (query : String) (top_k : ℕ) : Option (List AiResult) :=
  (faissSearch index (encode query) top_k).bind (buildResults chunks 0)

end DynamicChatbot

namespace SimpleChatbot

/-- `search_chunks(query, top_k)` from `AI/simple_chatbot.py` lines
77-92; its body is textually identical to the dynamic chatbot's. -/
def search_chunks (encode : String → Vec) (index : List Vec)
    (chunks : List AiChunk) (query : String) (top_k : ℕ) : Option (List AiResult) :=
  (faissSearch index (encode query) top_k).bind (DynamicChatbot.buildResults chunks 0)

end SimpleChatbot

namespace NasaChatbot

/-- `NASAChatbot.search(query, top_k)` from `AI/nasa_chatbot.py` lines
134-157: raises `ValueError` when the model or index is `None`,
otherwise runs the same loop as the other chatbots. -/
def search (model : Option (String → Vec)) (index : Option (List Vec))
    (chunks : List AiChunk) (query : String) (top_k : ℕ) :
    Except String (Option (List AiResult)) :=
  match model, index with
  | some encode, some idx =>
    .ok ((faissSearch idx (encode query) top_k).bind (DynamicChatbot.buildResults chunks 0))
  | _, _ => .error "Model or index not initialized"

end NasaChatbot

/-- A corpus chunk as loaded by `nasa-ai-model/data_loader.py` and
consumed by `rag_system.py` / `hybrid_nasa_ai.py` / `app_lightweight.py`:
text plus paper id, section, source and a metadata mapping. -/
structure RagChunk where
  text : String
  paper_id : String
  section_ : String
  source : String
  metadata : List (String × String)
deriving DecidableEq, Repr

/-- A search result of `NASARAGSystem.search` (`rag_system.py`). -/
structure RagResult where
  text : String
  score : ℚ
  paper_id : String
  section_ : String
  source : String
  metadata : List (String × String)
deriving DecidableEq, Repr

namespace RagSystem

/-- The result-construction loop of `NASARAGSystem.search`
(`nasa-ai-model/rag_system.py` lines 131-142):
`for score, idx in zip(scores[0], indices[0]): if idx < len(self.chunks): ...`.
`self.chunks[idx]` raises `IndexError` when `idx < -len(chunks)`. -/
def ragLoop (chunks : List RagChunk) : List (ℚ × ℤ) → Option (List RagResult)
  | [] => some []
  | (score, idx) :: rest =>
    if idx < (chunks.length : ℤ) then
      match pyGet chunks idx with
      | some c => (ragLoop chunks rest).map
          (fun rs => ⟨c.text, score, c.paper_id, c.section_, c.source, c.metadata⟩ :: rs)
      | none => none
    else ragLoop chunks rest

/-- `NASARAGSystem.search(query, top_k)` from `nasa-ai-model/rag_system.py`
lines 109-147.  Raises `ValueError` when the index or the embedding model
is `None`; `top_k=None` falls back to the configured default; results are
filtered by `score >= self.threshold` after construction.  A faiss
`RuntimeError` (`top_k = 0`) or an `IndexError` escaping the loop are
the other error outcomes. -/
def search (embedding_model : Option (String → Vec)) (index : Option (List Vec))
    (chunks : List RagChunk) (threshold : ℚ) (defaultTopK : ℕ)
    (query : String) (top_k? : Option ℕ) : Except String (List RagResult) :=
  match index, embedding_model with
  | some idx, some encode =>
    let top_k := top_k?.getD defaultTopK
    match faissSearch idx (encode query) top_k with
    | none => .error "Error in faiss::Index::search: k > 0"
    | some hits =>
      match ragLoop chunks hits with
      | some results => .ok (results.filter (fun r => threshold ≤ r.score))
      | none => .error "list index out of range"
  | _, _ => .error "RAG system not initialized. Call setup() first."

/-- The context piece formatted for result number `i` (0-based) in
`NASARAGSystem.get_context`:
`f"[Source {i+1} - {source} - {section}]: {text}"`. -/
def mkPart (i : ℕ) (r : RagResult) : String :=
  "[Source " ++ toString (i + 1) ++ " - " ++ r.source ++ " - " ++ r.section_ ++ "]: " ++ r.text

/-- The packing loop of `NASARAGSystem.get_context` (lines 153-169):
append parts while `current_length + len(part) <= max_length`, tracking
only the sum of the part lengths, and break at the first overflow. -/
def contextLoop (maxLen : ℕ) : ℕ → ℕ → List RagResult → List String
  | _, _, [] => []
  | i, cur, r :: rest =>
    let part := mkPart i r
    if cur + part.length > maxLen then []
    else part :: contextLoop maxLen (i + 1) (cur + part.length) rest

/-- `NASARAGSystem.get_context(query, max_length)` from
`nasa-ai-model/rag_system.py` lines 149-171: search with the default
`top_k`, pack parts under the budget, and return
`"\n\n".join(context_parts)` — the join separators are not counted by
the loop. -/
def get_context (embedding_model : Option (String → Vec)) (index : Option (List Vec))
    (chunks : List RagChunk) (threshold : ℚ) (defaultTopK : ℕ)
    (query : String) (maxLen : ℕ) : Except String String :=
  (search embedding_model index chunks threshold defaultTopK query none).map
    (fun results => String.intercalate "\n\n" (contextLoop maxLen 0 0 results))

end RagSystem

namespace HybridAI

/-- A result of `HybridNASAAI.search_context` (`hybrid_nasa_ai.py`). -/
structure HybridResult where
  text : String
  paper_id : String
  section_ : String
  score : ℚ
deriving DecidableEq, Repr

/-- The loop of `HybridNASAAI.search_context`
(`nasa-ai-model/hybrid_nasa_ai.py` lines 74-84):
`if idx != -1 and score > 0.3: chunk = self.chunks[idx]; ...`. -/
def hybridLoop (chunks : List RagChunk) : List (ℚ × ℤ) → Option (List HybridResult)
  | [] => some []
  | (score, idx) :: rest =>
    if idx ≠ -1 ∧ 3 / 10 < score then
      match pyGet chunks idx with
      | some c => (hybridLoop chunks rest).map
          (fun rs => ⟨c.text, c.paper_id, c.section_, score⟩ :: rs)
      | none => none
    else hybridLoop chunks rest

/-- `HybridNASAAI.search_context(query, top_k)` from
`nasa-ai-model/hybrid_nasa_ai.py` lines 69-85: keep hits with a real
label and score strictly above the hard-coded `0.3`. -/
def search_context (encode : String → Vec) (index : List Vec)
    (chunks : List RagChunk) (query : String) (top_k : ℕ) :
    Option (List HybridResult) :=
  (faissSearch index (encode query) top_k).bind (hybridLoop chunks)

end HybridAI

namespace AppLightweight

/-- A result of `search_context` (`app_lightweight.py`). -/
structure LightResult where
  text : String
  source : String
  paper_id : String
  section_ : String
  score : ℚ
deriving DecidableEq, Repr

/-- The loop of `search_context` (`nasa-ai-model/app_lightweight.py`
lines 52-62): `for i, score in zip(I[0], D[0]): if i != -1: ...`.
A hit pair carries `(score, label)`; the padding label `-1` is skipped
correctly here. -/
def lightLoop (chunks : List RagChunk) : List (ℚ × ℤ) → Option (List LightResult)
  | [] => some []
  | (score, i) :: rest =>
    if i ≠ -1 then
      match pyGet chunks i with
      | some c => (lightLoop chunks rest).map
          (fun rs => ⟨c.text, c.source, c.paper_id, c.section_, score⟩ :: rs)
      | none => none
    else lightLoop chunks rest

/-- `search_context(query, top_k)` from `nasa-ai-model/app_lightweight.py`
lines 43-66: returns `[]` when any global component is still `None`, and
its whole body is wrapped in `try/except` returning `[]`, so an
`IndexError` inside the loop also yields `[]`. -/
def search_context (embedding_model : Option (String → Vec))
    (faiss_index : Option (List Vec)) (chunks : Option (List RagChunk))
    (query : String) (top_k : ℕ) : List LightResult :=
  match embedding_model, faiss_index, chunks with
  | some encode, some idx, some cs =>
    ((faissSearch idx (encode query) top_k).bind (lightLoop cs)).getD []
  | _, _, _ => []

end AppLightweight

namespace DataLoader

/-- The fields of one JSONL paper record that
`NASADataLoader.load_papers_data` reads via `data.get(...)`; `none`
means the key is absent (so the `get` default applies). -/
structure PaperRecord where
  chunk_text_clean : Option String
  chunk_text : Option String
  paper_id : Option String
  Paper_ID : Option String
  section_ : Option String
  title : Option String
  authors : Option String
  year : Option String
  chunk_index : Option ℕ
deriving DecidableEq, Repr

/-- One line of the papers JSONL file as seen by `json.loads`: either
parsing raises `JSONDecodeError` (`malformed`) or yields a record. -/
inductive PaperLine where
  | malformed
  | record (r : PaperRecord)
deriving DecidableEq, Repr

/-- The per-line loop of `load_papers_data`
(`nasa-ai-model/data_loader.py` lines 31-54).  `line_num` starts at 1
(`enumerate(f, 1)`); a `JSONDecodeError` prints and `continue`s; a
record is kept when its text is non-empty and its length lies in
`[min_length, max_length]`. -/
def processPapers (minLen maxLen : ℕ) : ℕ → List PaperLine → List RagChunk
  | _, [] => []
  | lineNum, PaperLine.malformed :: rest => processPapers minLen maxLen (lineNum + 1) rest
  | lineNum, PaperLine.record r :: rest =>
    let chunk_text := r.chunk_text_clean.getD (r.chunk_text.getD "")
    if chunk_text ≠ "" ∧ minLen ≤ chunk_text.length ∧ chunk_text.length ≤ maxLen then
      { text := chunk_text
        paper_id := r.paper_id.getD (r.Paper_ID.getD ("Paper_" ++ toString lineNum))
        section_ := r.section_.getD "Unknown"
        source := "papers"
        metadata := [("title", r.title.getD ""), ("authors", r.authors.getD ""),
          ("year", r.year.getD ""), ("chunk_index", toString (r.chunk_index.getD 1))] }
        :: processPapers minLen maxLen (lineNum + 1) rest
    else processPapers minLen maxLen (lineNum + 1) rest

/-- `NASADataLoader.load_papers_data` (`nasa-ai-model/data_loader.py`
lines 22-61).  The papers file is `none` when it does not exist, in
which case the `except FileNotFoundError` handler prints and returns
`[]`.  The `Except` channel carries any uncaught fatal error; the
source catches the missing-file case, so no input produces `.error`. -/
def load_papers_data (papersFile : Option (List PaperLine)) (minLen maxLen : ℕ) :
    Except String (List RagChunk) :=
  match papersFile with
  | some lines => .ok (processPapers minLen maxLen 1 lines)
  | none => .ok []

end DataLoader

namespace CursorBack

/-- Python strings of `cursor-back/main.py`, modelled as lists of code
points so that `len`, `str.lower`, `str.strip` and concatenation are
elementary; casing is modelled on the ASCII range. -/
abbrev PyStr := List ℕ

/-- Python `\s` / `str.strip` whitespace on the ASCII range:
space, tab, newline, carriage return, vertical tab, form feed. -/
def isPyWs (c : ℕ) : Bool := c = 32 || c = 9 || c = 10 || c = 13 || c = 11 || c = 12

/-- `str.lower` on one code point (ASCII range). -/
def lowerCp (c : ℕ) : ℕ := if 65 ≤ c ∧ c ≤ 90 then c + 32 else c

/-- An ASCII uppercase letter. -/
def isUpperCp (c : ℕ) : Prop := 65 ≤ c ∧ c ≤ 90

instance (c : ℕ) : Decidable (isUpperCp c) := inferInstanceAs (Decidable (_ ∧ _))

/-- `str.lower` (`text.lower()` in `clean_chunk_text`). -/
def pyLower (s : PyStr) : PyStr := s.map lowerCp

/-- Helper for `re.sub(r'\s+', ' ', s)`: the flag records whether the
previous character was whitespace, so each maximal whitespace run
becomes a single space. -/
def normWsAux : Bool → PyStr → PyStr
  | _, [] => []
  | prevWs, c :: rest =>
    if isPyWs c then
      if prevWs then normWsAux true rest else 32 :: normWsAux true rest
    else c :: normWsAux false rest

/-- `re.sub(r'\s+', ' ', s)` — collapse whitespace runs to one space. -/
def normWs (s : PyStr) : PyStr := normWsAux false s

/-- `str.strip()` — drop whitespace from both ends. -/
def pyStrip (s : PyStr) : PyStr :=
  ((s.dropWhile isPyWs).reverse.dropWhile isPyWs).reverse

/-- `clean_chunk_text(text)` from `cursor-back/main.py` lines 205-259:
lowercase the whole text, run the boilerplate-pattern removals,
collapse whitespace, strip, and return `""` when fewer than 100
characters remain.  `removeBoiler` stands for the chain of
`re.sub(pattern, "", ...)` calls over the fixed pattern list; each such
substitution only deletes matched substrings, which the theorems record
as the hypothesis that `removeBoiler s` is a sublist of `s`. -/
def clean_chunk_text (removeBoiler : PyStr → PyStr) (text : PyStr) : PyStr :=
  let cleaned := pyStrip (normWs (removeBoiler (pyLower text)))
  if cleaned.length < 100 then [] else cleaned

/-- The packing loop of `combine_chunks` (`cursor-back/main.py` lines
266-278): clean each chunk, skip cleaned chunks shorter than 50, append
`cleaned + " "` while `len(combined) + len(cleaned) + 1 <= max_length`,
break at the first chunk that does not fit. -/
def combineLoop (removeBoiler : PyStr → PyStr) (maxLen : ℕ) (acc : PyStr) :
    List PyStr → PyStr
  | [] => acc
  | chunk :: rest =>
    let cleaned := clean_chunk_text removeBoiler chunk
    if cleaned.length < 50 then combineLoop removeBoiler maxLen acc rest
    else if acc.length + cleaned.length + 1 ≤ maxLen then
      combineLoop removeBoiler maxLen (acc ++ cleaned ++ [32]) rest
    else acc

/-- `combine_chunks(chunks, max_length)` from `cursor-back/main.py`
lines 261-279: run the packing loop from the empty accumulator and
`strip()` the result. -/
def combine_chunks (removeBoiler : PyStr → PyStr) (chunks : List PyStr) (maxLen : ℕ) :
    PyStr :=
  pyStrip (combineLoop removeBoiler maxLen [] chunks)

end CursorBack

namespace CursorBack

/-- The accumulator shape built by `combine_chunks` before the final
`strip()`: each included cleaned chunk, whole, followed by one space. -/
def joinSp (l : List PyStr) : PyStr := (l.map (fun c => c ++ [32])).flatten

/-- Code points of a Lean string literal, for concrete instances. -/
def strCodes (s : String) : PyStr := s.data.map Char.toNat

end CursorBack

namespace RagSystem

/-- Total length of a list of context parts (sum of Python `len`s). -/
def sumLen (l : List String) : ℕ := (l.map String.length).sum

/-- All context parts `get_context` could form from a result list,
numbering from `i`: part `j` embeds result `j`'s text whole. -/
def partsFrom : ℕ → List RagResult → List String
  | _, [] => []
  | i, r :: rest => mkPart i r :: partsFrom (i + 1) rest

end RagSystem

theorem idxPairsFrom_length (i : ℤ) (l : List ℚ) :
    (idxPairsFrom i l).length = l.length := by
  induction l generalizing i with
  | nil => rfl
  | cons s rest ih => simp [idxPairsFrom, ih]

theorem idxPairsFrom_label_bounds (i : ℤ) (l : List ℚ) :
    ∀ p ∈ idxPairsFrom i l, i ≤ p.2 ∧ p.2 < i + l.length := by
  induction l generalizing i with
  | nil => simp [idxPairsFrom]
  | cons s rest ih =>
    intro p hp
    simp only [idxPairsFrom, List.mem_cons] at hp
    rcases hp with h | h
    · subst h
      refine ⟨le_refl i, ?_⟩
      simp only [List.length_cons]
      push_cast
      omega
    · have := ih (i + 1) p h
      simp only [List.length_cons]
      push_cast
      omega

theorem faissHits_length (stored : List Vec) (q : Vec) (k : ℕ) :
    (faissHits stored q k).length = k := by
  unfold faissHits
  simp [List.length_take, List.length_insertionSort, idxPairsFrom_length,
    List.length_map]
  omega

/-- Every hit FAISS returns carries either a genuine stored-vector label
in `[0, ntotal)` or the padding label `-1`. -/
theorem faissHits_label_bounds (stored : List Vec) (q : Vec) (k : ℕ) :
    ∀ p ∈ faissHits stored q k, -1 ≤ p.2 ∧ p.2 < (stored.length : ℤ) := by
  intro p hp
  unfold faissHits at hp
  rcases List.mem_append.mp hp with h | h
  · have h1 : p ∈ List.insertionSort hitRel (idxPairsFrom 0 (stored.map (fun v => dot q v))) :=
      List.mem_of_mem_take h
    have h2 : p ∈ idxPairsFrom 0 (stored.map (fun v => dot q v)) :=
      (List.perm_insertionSort hitRel _).mem_iff.mp h1
    have := idxPairsFrom_label_bounds 0 _ p h2
    simp only [List.length_map] at this
    omega
  · have := List.eq_of_mem_replicate h
    subst this
    simp
    omega

theorem faissSearch_eq_some (stored : List Vec) (q : Vec) (k : ℕ) (hk : k ≠ 0) :
    faissSearch stored q k = some (faissHits stored q k) := by
  unfold faissSearch
  rw [if_neg hk]

theorem faissSearch_some_inv (stored : List Vec) (q : Vec) (k : ℕ)
    (hits : List (ℚ × ℤ)) (h : faissSearch stored q k = some hits) :
    k ≠ 0 ∧ hits = faissHits stored q k := by
  unfold faissSearch at h
  split at h
  · exact absurd h (by simp)
  · rename_i hk
    exact ⟨hk, (Option.some.inj h).symm⟩

theorem faissSearch_zero (stored : List Vec) (q : Vec) :
    faissSearch stored q 0 = none := rfl

theorem pyGet_some {α : Type} (xs : List α) (i : ℤ) (h1 : -1 ≤ i)
    (h2 : i < (xs.length : ℤ)) (h3 : xs ≠ []) : ∃ c, pyGet xs i = some c := by
  unfold pyGet
  by_cases h : 0 ≤ i
  · rw [if_pos h]
    have hlt : i.toNat < xs.length := by omega
    exact ⟨_, List.get?_eq_get hlt⟩
  · have hi : i = -1 := by omega
    subst hi
    have hne : 0 < xs.length := List.length_pos.mpr h3
    rw [if_neg h, if_pos (by omega)]
    have hlt : ((-1 : ℤ) + xs.length).toNat < xs.length := by omega
    exact ⟨_, List.get?_eq_get hlt⟩

theorem buildResults_length_le (chunks : List AiChunk) :
    ∀ (hits : List (ℚ × ℤ)) (i : ℕ) (rs : List AiResult),
      DynamicChatbot.buildResults chunks i hits = some rs → rs.length ≤ hits.length := by
  intro hits
  induction hits with
  | nil =>
    intro i rs h
    simp only [DynamicChatbot.buildResults, Option.some.injEq] at h
    subst h; simp
  | cons p rest ih =>
    intro i rs h
    obtain ⟨score, idx⟩ := p
    simp only [DynamicChatbot.buildResults] at h
    split at h
    · match hg : pyGet chunks idx with
      | some c =>
        rw [hg] at h
        rcases Option.map_eq_some'.mp h with ⟨rs', hrs', heq⟩
        subst heq
        have := ih (i + 1) rs' hrs'
        simp only [List.length_cons]
        omega
      | none => rw [hg] at h; exact absurd h (by simp)
    · have := ih (i + 1) rs h
      simp only [List.length_cons]
      omega

theorem buildResults_all_hit (chunks : List AiChunk) (hC : chunks ≠ []) :
    ∀ (hits : List (ℚ × ℤ)) (i : ℕ),
      (∀ p ∈ hits, -1 ≤ p.2 ∧ p.2 < (chunks.length : ℤ)) →
      ∃ rs, DynamicChatbot.buildResults chunks i hits = some rs ∧
        rs.map (fun r => r.rank) = List.range' (i + 1) hits.length := by
  intro hits
  induction hits with
  | nil => intro i _; exact ⟨[], rfl, by simp⟩
  | cons p rest ih =>
    intro i hb
    obtain ⟨score, idx⟩ := p
    have hp := hb (score, idx) (List.mem_cons_self _ _)
    obtain ⟨c, hc⟩ := pyGet_some chunks idx hp.1 hp.2 hC
    obtain ⟨rs', hrs', hrank⟩ := ih (i + 1) (fun q hq => hb q (List.mem_cons_of_mem _ hq))
    refine ⟨⟨c.chunk, c.metadata, score, i + 1⟩ :: rs', ?_, ?_⟩
    · simp only [DynamicChatbot.buildResults]
      rw [if_pos hp.2, hc, hrs']
      rfl
    · simp only [List.map_cons, hrank, List.length_cons]
      exact (List.range'_succ (i + 1) rest.length 1).symm

theorem ragLoop_length_le (chunks : List RagChunk) :
    ∀ (hits : List (ℚ × ℤ)) (rs : List RagResult),
      RagSystem.ragLoop chunks hits = some rs → rs.length ≤ hits.length := by
  intro hits
  induction hits with
  | nil =>
    intro rs h
    simp only [RagSystem.ragLoop, Option.some.injEq] at h
    subst h; simp
  | cons p rest ih =>
    intro rs h
    obtain ⟨score, idx⟩ := p
    simp only [RagSystem.ragLoop] at h
    split at h
    · match hg : pyGet chunks idx with
      | some c =>
        rw [hg] at h
        rcases Option.map_eq_some'.mp h with ⟨rs', hrs', heq⟩
        subst heq
        have := ih rs' hrs'
        simp only [List.length_cons]
        omega
      | none => rw [hg] at h; exact absurd h (by simp)
    · have := ih rs h
      simp only [List.length_cons]
      omega

theorem hybridLoop_score (chunks : List RagChunk) :
    ∀ (hits : List (ℚ × ℤ)) (rs : List HybridAI.HybridResult),
      HybridAI.hybridLoop chunks hits = some rs →
      ∀ r ∈ rs, 3 / 10 < r.score := by
  intro hits
  induction hits with
  | nil =>
    intro rs h
    simp only [HybridAI.hybridLoop, Option.some.injEq] at h
    subst h; simp
  | cons p rest ih =>
    intro rs h
    obtain ⟨score, idx⟩ := p
    simp only [HybridAI.hybridLoop] at h
    split at h
    · rename_i hcond
      match hg : pyGet chunks idx with
      | some c =>
        rw [hg] at h
        rcases Option.map_eq_some'.mp h with ⟨rs', hrs', heq⟩
        subst heq
        intro r hr
        rcases List.mem_cons.mp hr with hr | hr
        · subst hr; exact hcond.2
        · exact ih rs' hrs' r hr
      | none => rw [hg] at h; exact absurd h (by simp)
    · exact ih rs h

/-- C10: `NASARAGSystem.search` raises `ValueError` ("RAG system not
initialized. Call setup() first.") whenever the index or the embedding
model is still `None`, and that error branch is never taken once both
are initialised. -/
theorem c10_search_requires_initialization :
    (∀ (em : Option (String → Vec)) (idx : Option (List Vec)) (C : List RagChunk)
        (thr : ℚ) (dk : ℕ) (q : String) (k? : Option ℕ),
      em = none ∨ idx = none →
        RagSystem.search em idx C thr dk q k? =
          .error "RAG system not initialized. Call setup() first.") ∧
    (∀ (e : String → Vec) (I : List Vec) (C : List RagChunk)
        (thr : ℚ) (dk : ℕ) (q : String) (k? : Option ℕ),
      RagSystem.search (some e) (some I) C thr dk q k? ≠
        .error "RAG system not initialized. Call setup() first.") := by
  constructor
  · intro em idx C thr dk q k? h
    rcases h with h | h
    · subst h
      cases idx with
      | none => rfl
      | some i => rfl
    · subst h
      rfl
  · intro e I C thr dk q k? hcontra
    simp only [RagSystem.search] at hcontra
    split at hcontra
    · simp only [Except.error.injEq] at hcontra
      exact absurd hcontra (by decide)
    · split at hcontra
      · exact absurd hcontra (by simp)
      · simp only [Except.error.injEq] at hcontra
        exact absurd hcontra (by decide)

/-- C10 witness: with the model missing the initialisation error is
raised; with everything initialised it is not. -/
theorem c10_search_requires_initialization_witness :
    ((none : Option (String → Vec)) = none ∨ (some [[(1:ℚ)]] : Option (List Vec)) = none) ∧
    RagSystem.search none (some [[(1:ℚ)]]) [] 0 5 "q" none =
      .error "RAG system not initialized. Call setup() first." ∧
    RagSystem.search (some (fun _ => [(1:ℚ)])) (some [[(1:ℚ)]]) [] 0 5 "q" none ≠
      .error "RAG system not initialized. Call setup() first." :=
  ⟨Or.inl rfl,
   c10_search_requires_initialization.1 none (some [[(1:ℚ)]]) [] 0 5 "q" none (Or.inl rfl),
   c10_search_requires_initialization.2 (fun _ => [(1:ℚ)]) [[(1:ℚ)]] [] 0 5 "q" none⟩

/-- C7 counterexample: faiss's `Index::search` enforces
`FAISS_THROW_IF_NOT(k > 0)` and neither `NASARAGSystem.search` nor
`search_chunks` guards `top_k`, so `top_k = 0` propagates the faiss
`RuntimeError` instead of returning an empty list. -/
theorem c7_top_k_bound_counterexample :
    RagSystem.search (some (fun _ => [(1:ℚ)])) (some [[(1:ℚ)]])
      [⟨"tA", "p1", "s1", "papers", []⟩] 0 5 "q" (some 0) =
      .error "Error in faiss::Index::search: k > 0" ∧
    SimpleChatbot.search_chunks (fun _ => [(1:ℚ)]) [[(1:ℚ)]] [⟨"A", []⟩] "q" 0 =
      none :=
  ⟨rfl, rfl⟩

/-- C7 amended: the result list of `NASARAGSystem.search` with
`top_k = k` has length at most `k` whenever the call returns one, and
likewise for `search_chunks` in `simple_chatbot.py`; `top_k = 0` is
rejected inside faiss (`k > 0` check), so the call raises — rag search
surfaces the `RuntimeError`, `search_chunks` lets it escape — rather
than returning the empty list. -/
theorem c7_top_k_bound_amended :
    (∀ (e : String → Vec) (I : List Vec) (C : List RagChunk) (thr : ℚ) (dk : ℕ)
        (q : String) (k : ℕ) (rs : List RagResult),
      RagSystem.search (some e) (some I) C thr dk q (some k) = .ok rs →
        rs.length ≤ k) ∧
    (∀ (e : String → Vec) (I : List Vec) (C : List RagChunk) (thr : ℚ) (dk : ℕ)
        (q : String),
      RagSystem.search (some e) (some I) C thr dk q (some 0) =
        .error "Error in faiss::Index::search: k > 0") ∧
    (∀ (e : String → Vec) (I : List Vec) (C : List AiChunk) (q : String) (k : ℕ)
        (rs : List AiResult),
      SimpleChatbot.search_chunks e I C q k = some rs → rs.length ≤ k) ∧
    (∀ (e : String → Vec) (I : List Vec) (C : List AiChunk) (q : String),
      SimpleChatbot.search_chunks e I C q 0 = none) := by
  refine ⟨?_, ?_, ?_, ?_⟩
  · intro e I C thr dk q k rs h
    simp only [RagSystem.search, Option.getD] at h
    split at h
    · exact absurd h (by simp)
    · rename_i hits hfs
      split at h
      · rename_i results hres
        simp only [Except.ok.injEq] at h
        subst h
        obtain ⟨hk, hh⟩ := faissSearch_some_inv I (e q) k hits hfs
        calc (results.filter _).length ≤ results.length := List.length_filter_le _ _
          _ ≤ hits.length := ragLoop_length_le C hits results hres
          _ = k := by rw [hh]; exact faissHits_length I (e q) k
      · exact absurd h (by simp)
  · intro e I C thr dk q
    rfl
  · intro e I C q k rs h
    simp only [SimpleChatbot.search_chunks] at h
    rcases Option.bind_eq_some.mp h with ⟨hits, hfs, hb⟩
    obtain ⟨hk, hh⟩ := faissSearch_some_inv I (e q) k hits hfs
    calc rs.length ≤ hits.length := buildResults_length_le C hits 0 rs hb
      _ = k := by rw [hh]; exact faissHits_length I (e q) k
  · intro e I C q
    rfl

/-- C7 witness: a concrete two-chunk corpus searched with `top_k = 1`
returns at most one result from the rag search, and a one-chunk corpus
searched with `top_k = 1` returns at most one result from
`search_chunks`. -/
theorem c7_top_k_bound_witness :
    RagSystem.search (some (fun _ => [(1:ℚ)])) (some [[(1:ℚ)], [(2:ℚ)]])
      [⟨"tA", "p1", "s1", "papers", []⟩, ⟨"tB", "p2", "s2", "papers", []⟩]
      0 5 "q" (some 1) = .ok [⟨"tB", 2, "p2", "s2", "papers", []⟩] ∧
    ([(⟨"tB", 2, "p2", "s2", "papers", []⟩ : RagResult)]).length ≤ 1 ∧
    SimpleChatbot.search_chunks (fun _ => [(1:ℚ)]) [[(1:ℚ)]] [⟨"A", []⟩] "q" 1 =
      some [⟨"A", [], 1, 1⟩] ∧
    ([(⟨"A", [], (1:ℚ), 1⟩ : AiResult)]).length ≤ 1 :=
  have h1 : RagSystem.search (some (fun _ => [(1:ℚ)])) (some [[(1:ℚ)], [(2:ℚ)]])
      [⟨"tA", "p1", "s1", "papers", []⟩, ⟨"tB", "p2", "s2", "papers", []⟩]
      0 5 "q" (some 1) = .ok [⟨"tB", 2, "p2", "s2", "papers", []⟩] := by
    norm_num [RagSystem.search, RagSystem.ragLoop, faissSearch, faissHits, dot,
      idxPairsFrom, pyGet, List.insertionSort, List.orderedInsert, hitRel, negFltMax]
  have h2 : SimpleChatbot.search_chunks (fun _ => [(1:ℚ)]) [[(1:ℚ)]] [⟨"A", []⟩]
      "q" 1 = some [⟨"A", [], 1, 1⟩] := by
    norm_num [SimpleChatbot.search_chunks, DynamicChatbot.buildResults, faissSearch,
      faissHits, dot, idxPairsFrom, pyGet, List.insertionSort, List.orderedInsert,
      hitRel, negFltMax]
  ⟨h1,
   c7_top_k_bound_amended.1 (fun _ => [(1:ℚ)]) [[(1:ℚ)], [(2:ℚ)]]
     [⟨"tA", "p1", "s1", "papers", []⟩, ⟨"tB", "p2", "s2", "papers", []⟩]
     0 5 "q" 1 [⟨"tB", 2, "p2", "s2", "papers", []⟩] h1,
   h2,
   c7_top_k_bound_amended.2.2.1 (fun _ => [(1:ℚ)]) [[(1:ℚ)]] [⟨"A", []⟩] "q" 1
     [⟨"A", [], 1, 1⟩] h2⟩

/-- C6: for a fixed index, corpus and query, search is a pure function:
two calls return identical ordered results — same chunks, same scores,
same ranks.  The modelled search path of `rag_system.py` and
`simple_chatbot.py` performs no mutation and consults no randomness, so
the embedded functions are deterministic by construction. -/
theorem c6_search_deterministic :
    (∀ (em : Option (String → Vec)) (idx : Option (List Vec)) (C : List RagChunk)
        (thr : ℚ) (dk : ℕ) (q : String) (k? : Option ℕ),
      RagSystem.search em idx C thr dk q k? = RagSystem.search em idx C thr dk q k?) ∧
    (∀ (e : String → Vec) (I : List Vec) (C : List AiChunk) (q : String) (k : ℕ),
      SimpleChatbot.search_chunks e I C q k = SimpleChatbot.search_chunks e I C q k ∧
      Option.map (List.map (fun r => r.chunk)) (SimpleChatbot.search_chunks e I C q k) =
        Option.map (List.map (fun r => r.chunk)) (SimpleChatbot.search_chunks e I C q k) ∧
      Option.map (List.map (fun r => r.score)) (SimpleChatbot.search_chunks e I C q k) =
        Option.map (List.map (fun r => r.score)) (SimpleChatbot.search_chunks e I C q k) ∧
      Option.map (List.map (fun r => r.rank)) (SimpleChatbot.search_chunks e I C q k) =
        Option.map (List.map (fun r => r.rank)) (SimpleChatbot.search_chunks e I C q k)) :=
  ⟨fun _ _ _ _ _ _ _ => rfl, fun _ _ _ _ _ => ⟨rfl, rfl, rfl, rfl⟩⟩

/-- C1 counterexample: `search_chunks` in `dynamic_chatbot.py` applies
no score threshold at all — a corpus whose best hit has similarity
`1/10 < 3/10` is still returned. -/
theorem c1_threshold_counterexample :
    DynamicChatbot.search_chunks (fun _ => [(1:ℚ)]) [[(1:ℚ)/10]]
      [⟨"Solar panels convert sunlight to electricity.", []⟩]
      "How does space affect bones?" 1 =
      some [⟨"Solar panels convert sunlight to electricity.", [], 1/10, 1⟩] ∧
    (1:ℚ)/10 < 3/10 :=
  ⟨by norm_num [DynamicChatbot.search_chunks, DynamicChatbot.buildResults, faissSearch,
      dot, idxPairsFrom, pyGet, List.insertionSort, List.orderedInsert, hitRel, negFltMax],
   by norm_num⟩

/-- C1 amended: threshold filtering holds only for the variants that
implement it — `NASARAGSystem.search` keeps exactly the results with
`score >= threshold`, and `HybridNASAAI.search_context` keeps exactly
those with `score > 0.3`; `search_chunks` (dynamic/simple chatbot) and
`NASAChatbot.search` return raw top-k results with no threshold. -/
theorem c1_threshold_amended :
    (∀ (e : String → Vec) (I : List Vec) (C : List RagChunk) (thr : ℚ) (dk : ℕ)
        (q : String) (k? : Option ℕ) (rs : List RagResult),
      RagSystem.search (some e) (some I) C thr dk q k? = .ok rs →
        ∀ r ∈ rs, thr ≤ r.score) ∧
    (∀ (e : String → Vec) (I : List Vec) (C : List RagChunk) (q : String) (k : ℕ)
        (rs : List HybridAI.HybridResult),
      HybridAI.search_context e I C q k = some rs → ∀ r ∈ rs, 3 / 10 < r.score) := by
  constructor
  · intro e I C thr dk q k? rs h r hr
    simp only [RagSystem.search] at h
    split at h
    · exact absurd h (by simp)
    · split at h
      · simp only [Except.ok.injEq] at h
        subst h
        exact of_decide_eq_true (List.mem_filter.mp hr).2
      · exact absurd h (by simp)
  · intro e I C q k rs h r hr
    simp only [HybridAI.search_context] at h
    rcases Option.bind_eq_some.mp h with ⟨hits, _, hb⟩
    exact hybridLoop_score C hits rs hb r hr

/-- C1 witness: a chunk scoring `1 >= 3/10` is returned by the rag
search and the hybrid search, and its score clears the threshold. -/
theorem c1_threshold_witness :
    RagSystem.search (some (fun _ => [(1:ℚ)])) (some [[(1:ℚ)]])
      [⟨"Bone density decreases in microgravity.", "p1", "Results", "papers", []⟩]
      (3/10) 5 "q" (some 1) =
      .ok [⟨"Bone density decreases in microgravity.", 1, "p1", "Results", "papers", []⟩] ∧
    (3:ℚ)/10 ≤ (⟨"Bone density decreases in microgravity.", 1, "p1", "Results", "papers", []⟩
      : RagResult).score ∧
    HybridAI.search_context (fun _ => [(1:ℚ)]) [[(1:ℚ)]]
      [⟨"Bone density decreases in microgravity.", "p1", "Results", "papers", []⟩] "q" 1 =
      some [⟨"Bone density decreases in microgravity.", "p1", "Results", 1⟩] ∧
    (3:ℚ)/10 < (⟨"Bone density decreases in microgravity.", "p1", "Results", 1⟩
      : HybridAI.HybridResult).score :=
  have h1 : RagSystem.search (some (fun _ => [(1:ℚ)])) (some [[(1:ℚ)]])
      [⟨"Bone density decreases in microgravity.", "p1", "Results", "papers", []⟩]
      (3/10) 5 "q" (some 1) =
      .ok [⟨"Bone density decreases in microgravity.", 1, "p1", "Results", "papers", []⟩] := by
    norm_num [RagSystem.search, RagSystem.ragLoop, faissSearch, faissHits, dot, idxPairsFrom,
      pyGet, List.insertionSort, List.orderedInsert, hitRel, negFltMax]
  have h2 : HybridAI.search_context (fun _ => [(1:ℚ)]) [[(1:ℚ)]]
      [⟨"Bone density decreases in microgravity.", "p1", "Results", "papers", []⟩] "q" 1 =
      some [⟨"Bone density decreases in microgravity.", "p1", "Results", 1⟩] := by
    norm_num [HybridAI.search_context, HybridAI.hybridLoop, faissSearch, faissHits, dot, idxPairsFrom,
      pyGet, List.insertionSort, List.orderedInsert, hitRel, negFltMax]
  ⟨h1,
   c1_threshold_amended.1 (fun _ => [(1:ℚ)]) [[(1:ℚ)]]
     [⟨"Bone density decreases in microgravity.", "p1", "Results", "papers", []⟩]
     (3/10) 5 "q" (some 1)
     [⟨"Bone density decreases in microgravity.", 1, "p1", "Results", "papers", []⟩] h1
     ⟨"Bone density decreases in microgravity.", 1, "p1", "Results", "papers", []⟩
     (List.mem_singleton.mpr rfl),
   h2,
   c1_threshold_amended.2 (fun _ => [(1:ℚ)]) [[(1:ℚ)]]
     [⟨"Bone density decreases in microgravity.", "p1", "Results", "papers", []⟩] "q" 1
     [⟨"Bone density decreases in microgravity.", "p1", "Results", 1⟩] h2
     ⟨"Bone density decreases in microgravity.", "p1", "Results", 1⟩
     (List.mem_singleton.mpr rfl)⟩

/-- C5 counterexample: when a raw hit is skipped (its FAISS label is not
below `len(chunks)` — here a stale two-vector index over a one-chunk
corpus), the surviving result keeps its raw position as rank: the list
has length 1 but rank 2, not ranks `1..M`. -/
theorem c5_rank_contiguity_counterexample :
    DynamicChatbot.search_chunks (fun _ => [(1:ℚ)]) [[(1:ℚ)], [(2:ℚ)]]
      [⟨"A", []⟩] "q" 2 = some [⟨"A", [], 1, 2⟩] ∧
    NasaChatbot.search (some (fun _ => [(1:ℚ)])) (some [[(1:ℚ)], [(2:ℚ)]])
      [⟨"A", []⟩] "q" 2 = .ok (some [⟨"A", [], 1, 2⟩]) ∧
    [(⟨"A", [], 1, 2⟩ : AiResult)].map (fun r => r.rank) ≠ List.range' 1 1 := by
  refine ⟨?_, ?_, by decide⟩ <;>
    norm_num [DynamicChatbot.search_chunks, DynamicChatbot.buildResults,
      NasaChatbot.search, faissSearch, faissHits, dot, idxPairsFrom, pyGet,
      List.insertionSort, List.orderedInsert, hitRel, negFltMax]

/-- C5 amended: ranks are the raw hit positions, so they are exactly
`1..M` whenever no raw hit is skipped — in particular whenever the
corpus is non-empty and the index holds at most as many vectors as the
corpus has chunks (every FAISS label, including the `-1` padding, then
passes the `idx < len(chunks)` guard); a skipped hit leaves a gap. -/
theorem c5_rank_contiguity_amended :
    ∀ (e : String → Vec) (I : List Vec) (C : List AiChunk) (q : String) (k : ℕ),
      0 < k → C ≠ [] → I.length ≤ C.length →
      (∃ rs, DynamicChatbot.search_chunks e I C q k = some rs ∧
        rs.map (fun r => r.rank) = List.range' 1 rs.length) ∧
      (∃ rs, NasaChatbot.search (some e) (some I) C q k = .ok (some rs) ∧
        rs.map (fun r => r.rank) = List.range' 1 rs.length) := by
  intro e I C q k hk hC hlen
  have hfs : faissSearch I (e q) k = some (faissHits I (e q) k) :=
    faissSearch_eq_some I (e q) k (by omega)
  have hb : ∀ p ∈ faissHits I (e q) k, -1 ≤ p.2 ∧ p.2 < (C.length : ℤ) := by
    intro p hp
    have h := faissHits_label_bounds I (e q) k p hp
    refine ⟨h.1, lt_of_lt_of_le h.2 ?_⟩
    exact_mod_cast hlen
  obtain ⟨rs, hrs, hrank⟩ := buildResults_all_hit C hC (faissHits I (e q) k) 0 hb
  have hsc : DynamicChatbot.search_chunks e I C q k = some rs := by
    unfold DynamicChatbot.search_chunks
    rw [hfs, Option.some_bind]
    exact hrs
  have hlen' : rs.length = (faissHits I (e q) k).length := by
    have := congrArg List.length hrank
    simpa using this
  refine ⟨⟨rs, hsc, ?_⟩, ⟨rs, ?_, ?_⟩⟩
  · rw [hlen']; exact hrank
  · simp only [NasaChatbot.search]
    rw [hfs, Option.some_bind, hrs]
  · rw [hlen']; exact hrank

/-- C5 witness: an aligned one-chunk corpus searched with `top_k = 2`
(the padding hit included) yields contiguous ranks. -/
theorem c5_rank_contiguity_witness :
    (0 < 2) ∧
    ([(⟨"A", []⟩ : AiChunk)] ≠ []) ∧
    ([[(1:ℚ)]] : List Vec).length ≤ [(⟨"A", []⟩ : AiChunk)].length ∧
    ((∃ rs, DynamicChatbot.search_chunks (fun _ => [(1:ℚ)]) [[(1:ℚ)]]
        [⟨"A", []⟩] "q" 2 = some rs ∧
        rs.map (fun r => r.rank) = List.range' 1 rs.length) ∧
     (∃ rs, NasaChatbot.search (some (fun _ => [(1:ℚ)])) (some [[(1:ℚ)]])
        [⟨"A", []⟩] "q" 2 = .ok (some rs) ∧
        rs.map (fun r => r.rank) = List.range' 1 rs.length)) :=
  ⟨by decide, by decide, by decide,
   c5_rank_contiguity_amended (fun _ => [(1:ℚ)]) [[(1:ℚ)]] [⟨"A", []⟩] "q" 2
     (by decide) (by decide) (by decide)⟩

/-- C4: the guard `if idx < len(chunks)` in `dynamic_chatbot.py`'s
`search_chunks` is meant to drop invalid labels (compare the `i != -1`
check in `app_lightweight.py`), but FAISS pads with label `-1` when
`top_k` exceeds the corpus size, and `-1 < len(chunks)` holds in
Python; `chunks[-1]` then duplicates the last chunk with the sentinel
score `-FLT_MAX`, and on an empty corpus `chunks[-1]` raises
`IndexError`.  `app_lightweight.py`'s `search_context` behaves as the
spec says: each available chunk once, and `[]` on an empty corpus. -/
theorem c4_k_exceeds_corpus_code_bug :
    DynamicChatbot.search_chunks (fun _ => [(1:ℚ)]) [[(1:ℚ)], [(2:ℚ)]]
      [⟨"A", []⟩, ⟨"B", []⟩] "q" 3 =
      some [⟨"B", [], 2, 1⟩, ⟨"A", [], 1, 2⟩, ⟨"B", [], negFltMax, 3⟩] ∧
    DynamicChatbot.search_chunks (fun _ => [(1:ℚ)]) [] [] "q" 2 = none ∧
    AppLightweight.search_context (some (fun _ => [(1:ℚ)])) (some [[(1:ℚ)], [(2:ℚ)]])
      (some [⟨"tA", "p1", "s1", "papers", []⟩, ⟨"tB", "p2", "s2", "papers", []⟩])
      "q" 3 = [⟨"tB", "papers", "p2", "s2", 2⟩, ⟨"tA", "papers", "p1", "s1", 1⟩] ∧
    AppLightweight.search_context (some (fun _ => [(1:ℚ)])) (some []) (some [])
      "q" 5 = [] := by
  refine ⟨?_, ?_, ?_, ?_⟩ <;>
    norm_num [DynamicChatbot.search_chunks, DynamicChatbot.buildResults,
      AppLightweight.search_context, AppLightweight.lightLoop, faissSearch, faissHits,
      dot, idxPairsFrom, pyGet, List.insertionSort, List.orderedInsert, hitRel, negFltMax]

/-- C8 counterexample: the query `""` (empty after trimming) is not
reported as an error — both searches embed it like any other string and
return an ordinary non-empty result list. -/
theorem c8_empty_query_counterexample :
    DynamicChatbot.search_chunks (fun _ => [(1:ℚ)]) [[(1:ℚ)]] [⟨"A", []⟩] "" 1 =
      some [⟨"A", [], 1, 1⟩] ∧
    RagSystem.search (some (fun _ => [(1:ℚ)])) (some [[(1:ℚ)]])
      [⟨"tA", "p1", "s1", "papers", []⟩] 0 5 "" (some 1) =
      .ok [⟨"tA", 1, "p1", "s1", "papers", []⟩] := by
  refine ⟨?_, ?_⟩ <;>
    norm_num [DynamicChatbot.search_chunks, DynamicChatbot.buildResults,
      RagSystem.search, RagSystem.ragLoop, faissSearch, faissHits, dot, idxPairsFrom, pyGet,
      List.insertionSort, List.orderedInsert, hitRel, negFltMax]

/-- C8 amended: neither `search_chunks` (dynamic chatbot) nor
`NASARAGSystem.search` validates the query string: the query reaches
the embedder unchanged, so the result depends on the query only through
its embedding — an empty query is handled exactly like any other query
with the same embedding, with no distinguished error outcome. -/
theorem c8_empty_query_amended :
    (∀ (e : String → Vec) (I : List Vec) (C : List AiChunk) (k : ℕ) (q q' : String),
      e q = e q' →
        DynamicChatbot.search_chunks e I C q k = DynamicChatbot.search_chunks e I C q' k) ∧
    (∀ (e : String → Vec) (idx : Option (List Vec)) (C : List RagChunk) (thr : ℚ)
        (dk : ℕ) (k? : Option ℕ) (q q' : String),
      e q = e q' →
        RagSystem.search (some e) idx C thr dk q k? =
          RagSystem.search (some e) idx C thr dk q' k?) := by
  constructor
  · intro e I C k q q' h
    simp only [DynamicChatbot.search_chunks, h]
  · intro e idx C thr dk k? q q' h
    cases idx with
    | none => rfl
    | some I => simp only [RagSystem.search, h]

/-- C8 witness: the constant embedder sends `""` and `"bones"` to the
same vector, and the searches agree on them. -/
theorem c8_empty_query_witness :
    (fun (_ : String) => [(1:ℚ)]) "" = (fun (_ : String) => [(1:ℚ)]) "bones" ∧
    DynamicChatbot.search_chunks (fun _ => [(1:ℚ)]) [[(1:ℚ)]] [⟨"A", []⟩] "" 1 =
      DynamicChatbot.search_chunks (fun _ => [(1:ℚ)]) [[(1:ℚ)]] [⟨"A", []⟩] "bones" 1 :=
  ⟨rfl, c8_empty_query_amended.1 (fun _ => [(1:ℚ)]) [[(1:ℚ)]] [⟨"A", []⟩] 1 "" "bones" rfl⟩

/-- C3 counterexample: a missing papers file is caught by the
`except FileNotFoundError` handler, which prints and returns `[]` — the
load completes with an empty corpus instead of failing. -/
theorem c3_missing_file_counterexample :
    DataLoader.load_papers_data none 100 1000 = .ok [] := rfl

/-- C3 amended: `load_papers_data` never fails: a missing source file
yields a successful empty load (`[]`), and a malformed record is only
skipped — processing continues with the next line. -/
theorem c3_missing_file_amended :
    (∀ minLen maxLen : ℕ, DataLoader.load_papers_data none minLen maxLen = .ok []) ∧
    (∀ (minLen maxLen : ℕ) (file : Option (List DataLoader.PaperLine)),
      ∃ rs, DataLoader.load_papers_data file minLen maxLen = .ok rs) ∧
    (∀ (minLen maxLen lineNum : ℕ) (rest : List DataLoader.PaperLine),
      DataLoader.processPapers minLen maxLen lineNum (DataLoader.PaperLine.malformed :: rest) =
        DataLoader.processPapers minLen maxLen (lineNum + 1) rest) := by
  refine ⟨fun _ _ => rfl, ?_, fun _ _ _ _ => rfl⟩
  intro minLen maxLen file
  cases file with
  | none => exact ⟨[], rfl⟩
  | some lines => exact ⟨_, rfl⟩

theorem lowerCp_not_upper (c : ℕ) : ¬ CursorBack.isUpperCp (CursorBack.lowerCp c) := by
  unfold CursorBack.lowerCp CursorBack.isUpperCp
  split <;> omega

theorem mem_normWsAux (s : CursorBack.PyStr) :
    ∀ (b : Bool), ∀ c ∈ CursorBack.normWsAux b s, c ∈ s ∨ c = 32 := by
  induction s with
  | nil => intro b c hc; simp [CursorBack.normWsAux] at hc
  | cons d rest ih =>
    intro b c hc
    simp only [CursorBack.normWsAux] at hc
    by_cases hw : CursorBack.isPyWs d
    · rw [if_pos hw] at hc
      by_cases hb : b
      · rw [if_pos hb] at hc
        rcases ih true c hc with h | h
        · exact Or.inl (List.mem_cons_of_mem d h)
        · exact Or.inr h
      · rw [if_neg hb] at hc
        rcases List.mem_cons.mp hc with h | h
        · exact Or.inr h
        · rcases ih true c h with h' | h'
          · exact Or.inl (List.mem_cons_of_mem d h')
          · exact Or.inr h'
    · rw [if_neg hw] at hc
      rcases List.mem_cons.mp hc with h | h
      · exact Or.inl (h ▸ List.mem_cons_self d rest)
      · rcases ih false c h with h' | h'
        · exact Or.inl (List.mem_cons_of_mem d h')
        · exact Or.inr h'

theorem mem_pyStrip (s : CursorBack.PyStr) : ∀ c ∈ CursorBack.pyStrip s, c ∈ s := by
  intro c hc
  unfold CursorBack.pyStrip at hc
  have h1 := List.mem_reverse.mp hc
  have h2 := (List.dropWhile_sublist CursorBack.isPyWs).subset h1
  have h3 := List.mem_reverse.mp h2
  exact (List.dropWhile_sublist CursorBack.isPyWs).subset h3

/-- C9: `clean_chunk_text` returns either the empty string — exactly
when fewer than 100 characters remain after pattern removal and
whitespace normalisation — or a string with no uppercase characters:
the whole chunk is lowercased before the boilerplate patterns are
removed, so non-boilerplate content is case-altered too. -/
theorem c9_clean_chunk_lowercases :
    ∀ (removeBoiler : CursorBack.PyStr → CursorBack.PyStr) (text : CursorBack.PyStr),
      List.Sublist (removeBoiler (CursorBack.pyLower text)) (CursorBack.pyLower text) →
      ((CursorBack.clean_chunk_text removeBoiler text = [] ↔
        (CursorBack.pyStrip (CursorBack.normWs
          (removeBoiler (CursorBack.pyLower text)))).length < 100) ∧
       ∀ c ∈ CursorBack.clean_chunk_text removeBoiler text, ¬ CursorBack.isUpperCp c) := by
  intro rB text hsub
  have hnoup : ∀ c ∈ CursorBack.pyStrip (CursorBack.normWs (rB (CursorBack.pyLower text))),
      ¬ CursorBack.isUpperCp c := by
    intro c hc
    have h1 := mem_pyStrip _ c hc
    rcases mem_normWsAux _ false c h1 with h2 | h2
    · have h3 := hsub.subset h2
      rcases List.mem_map.mp h3 with ⟨d, _, hd⟩
      rw [← hd]
      exact lowerCp_not_upper d
    · subst h2
      simp [CursorBack.isUpperCp]
  constructor
  · simp only [CursorBack.clean_chunk_text]
    split
    · rename_i h
      exact iff_of_true rfl h
    · rename_i h
      constructor
      · intro he
        have h0 : (CursorBack.pyStrip (CursorBack.normWs
            (rB (CursorBack.pyLower text)))).length < 100 := by
          rw [he]; norm_num
        exact absurd h0 h
      · intro hlt
        exact absurd hlt h
  · simp only [CursorBack.clean_chunk_text]
    split
    · simp
    · exact hnoup

/-- C9 witness: a 129-character mixed-case chunk cleans (with the
identity pattern remover) to a non-empty all-lowercase string. -/
theorem c9_clean_chunk_lowercases_witness :
    List.Sublist
      (id (CursorBack.pyLower (CursorBack.strCodes "NASA Research shows that Bone Density decreases in Microgravity and Plants grow roots downward due to Gravity in Space missions.")))
      (CursorBack.pyLower (CursorBack.strCodes "NASA Research shows that Bone Density decreases in Microgravity and Plants grow roots downward due to Gravity in Space missions.")) ∧
    ((CursorBack.clean_chunk_text id (CursorBack.strCodes "NASA Research shows that Bone Density decreases in Microgravity and Plants grow roots downward due to Gravity in Space missions.") = [] ↔
      (CursorBack.pyStrip (CursorBack.normWs (id (CursorBack.pyLower (CursorBack.strCodes "NASA Research shows that Bone Density decreases in Microgravity and Plants grow roots downward due to Gravity in Space missions."))))).length < 100) ∧
     ∀ c ∈ CursorBack.clean_chunk_text id (CursorBack.strCodes "NASA Research shows that Bone Density decreases in Microgravity and Plants grow roots downward due to Gravity in Space missions."),
       ¬ CursorBack.isUpperCp c) :=
  ⟨List.Sublist.refl _,
   c9_clean_chunk_lowercases id
     (CursorBack.strCodes "NASA Research shows that Bone Density decreases in Microgravity and Plants grow roots downward due to Gravity in Space missions.")
     (List.Sublist.refl _)⟩

theorem combineLoop_length_le (rB : CursorBack.PyStr → CursorBack.PyStr) (maxLen : ℕ) :
    ∀ (cs : List CursorBack.PyStr) (acc : CursorBack.PyStr),
      acc.length ≤ maxLen → (CursorBack.combineLoop rB maxLen acc cs).length ≤ maxLen := by
  intro cs
  induction cs with
  | nil => intro acc h; exact h
  | cons chunk rest ih =>
    intro acc h
    simp only [CursorBack.combineLoop]
    split
    · exact ih acc h
    · split
      · rename_i hfit
        apply ih
        simp only [List.length_append, List.length_cons, List.length_nil]
        omega
      · exact h

theorem pyStrip_length_le (s : CursorBack.PyStr) :
    (CursorBack.pyStrip s).length ≤ s.length := by
  unfold CursorBack.pyStrip
  calc ((s.dropWhile CursorBack.isPyWs).reverse.dropWhile CursorBack.isPyWs).reverse.length
      = ((s.dropWhile CursorBack.isPyWs).reverse.dropWhile CursorBack.isPyWs).length :=
        List.length_reverse _
    _ ≤ (s.dropWhile CursorBack.isPyWs).reverse.length :=
        (List.dropWhile_sublist CursorBack.isPyWs).length_le
    _ = (s.dropWhile CursorBack.isPyWs).length := List.length_reverse _
    _ ≤ s.length := (List.dropWhile_sublist CursorBack.isPyWs).length_le

theorem combineLoop_join (rB : CursorBack.PyStr → CursorBack.PyStr) (maxLen : ℕ) :
    ∀ (cs : List CursorBack.PyStr) (acc : CursorBack.PyStr),
      ∃ m, CursorBack.combineLoop rB maxLen acc cs =
        acc ++ CursorBack.joinSp (((cs.map (CursorBack.clean_chunk_text rB)).filter
          (fun c => 50 ≤ c.length)).take m) := by
  intro cs
  induction cs with
  | nil => intro acc; exact ⟨0, by simp [CursorBack.combineLoop, CursorBack.joinSp]⟩
  | cons chunk rest ih =>
    intro acc
    by_cases h50 : (CursorBack.clean_chunk_text rB chunk).length < 50
    · obtain ⟨m, hm⟩ := ih acc
      refine ⟨m, ?_⟩
      simp only [CursorBack.combineLoop]
      rw [if_pos h50, hm, List.map_cons, List.filter_cons,
        if_neg (by simpa using (by omega : ¬ 50 ≤ (CursorBack.clean_chunk_text rB chunk).length))]
    · by_cases hfit : acc.length + (CursorBack.clean_chunk_text rB chunk).length + 1 ≤ maxLen
      · obtain ⟨m, hm⟩ := ih (acc ++ CursorBack.clean_chunk_text rB chunk ++ [32])
        refine ⟨m + 1, ?_⟩
        simp only [CursorBack.combineLoop]
        rw [if_neg h50, if_pos hfit, hm, List.map_cons, List.filter_cons,
          if_pos (by simpa using (by omega : 50 ≤ (CursorBack.clean_chunk_text rB chunk).length))]
        simp [CursorBack.joinSp, List.append_assoc]
      · refine ⟨0, ?_⟩
        simp only [CursorBack.combineLoop]
        rw [if_neg h50, if_neg hfit]
        simp [CursorBack.joinSp]

theorem contextLoop_sum (L : ℕ) :
    ∀ (rs : List RagResult) (i cur : ℕ),
      RagSystem.contextLoop L i cur rs = [] ∨
      cur + RagSystem.sumLen (RagSystem.contextLoop L i cur rs) ≤ L := by
  intro rs
  induction rs with
  | nil => intro i cur; exact Or.inl rfl
  | cons r rest ih =>
    intro i cur
    simp only [RagSystem.contextLoop]
    split
    · exact Or.inl rfl
    · rename_i hng
      right
      rcases ih (i + 1) (cur + (RagSystem.mkPart i r).length) with h | h
      · rw [h]
        simp only [RagSystem.sumLen, List.map_cons, List.map_nil, List.sum_cons,
          List.sum_nil]
        omega
      · simp only [RagSystem.sumLen, List.map_cons, List.sum_cons] at h ⊢
        omega

theorem contextLoop_take (L : ℕ) :
    ∀ (rs : List RagResult) (i cur : ℕ),
      ∃ m, RagSystem.contextLoop L i cur rs = (RagSystem.partsFrom i rs).take m := by
  intro rs
  induction rs with
  | nil => intro i cur; exact ⟨0, rfl⟩
  | cons r rest ih =>
    intro i cur
    simp only [RagSystem.contextLoop]
    split
    · exact ⟨0, rfl⟩
    · obtain ⟨m, hm⟩ := ih (i + 1) (cur + (RagSystem.mkPart i r).length)
      refine ⟨m + 1, ?_⟩
      rw [hm]
      rfl

theorem contextLoop_budget_zero (rs : List RagResult) :
    RagSystem.contextLoop 0 0 0 rs = [] := by
  cases rs with
  | nil => rfl
  | cons r rest =>
    simp only [RagSystem.contextLoop]
    rw [if_pos]
    have h8 : ("[Source " : String).length = 8 := rfl
    simp only [RagSystem.mkPart, String.length_append]
    omega

/-- C2 counterexample: `get_context` counts only the part lengths
against `max_length`, but returns `"\n\n".join(parts)` — the two-byte
separators are uncounted, so with budget 50 it returns 52 characters. -/
theorem c2_context_budget_counterexample :
    RagSystem.get_context (some (fun _ => [(1:ℚ)])) (some [[(1:ℚ)], [(1:ℚ)]])
      [⟨"xxxxx", "p", "t", "s", []⟩, ⟨"xxxxx", "p", "t", "s", []⟩] 0 5 "q" 50 =
      .ok "[Source 1 - s - t]: xxxxx\n\n[Source 2 - s - t]: xxxxx" ∧
    ("[Source 1 - s - t]: xxxxx\n\n[Source 2 - s - t]: xxxxx").length = 52 ∧
    50 < 52 := by
  refine ⟨?_, by decide, by norm_num⟩
  have hs : RagSystem.search (some (fun _ => [(1:ℚ)])) (some [[(1:ℚ)], [(1:ℚ)]])
      [⟨"xxxxx", "p", "t", "s", []⟩, ⟨"xxxxx", "p", "t", "s", []⟩] 0 5 "q" none =
      .ok [⟨"xxxxx", 1, "p", "t", "s", []⟩, ⟨"xxxxx", 1, "p", "t", "s", []⟩] := by
    norm_num [RagSystem.search, RagSystem.ragLoop, faissSearch, faissHits, dot, idxPairsFrom,
      pyGet, List.insertionSort, List.orderedInsert, hitRel, negFltMax]
  unfold RagSystem.get_context
  rw [hs]
  rfl

/-- C2 amended: `combine_chunks` (`cursor-back/main.py`) meets the
budget in full — output length at most `L` for every `L`, empty output
at `L = 0`, and the pre-strip output is a whole-chunk prefix of the
usable cleaned chunks.  For `get_context` (`rag_system.py`) the packing
loop bounds only the sum of the part lengths by `L` (the `"\n\n"`
separators of the final join are uncounted, so the returned string can
exceed `L` by two characters per extra part); `L = 0` still yields the
empty context, and parts embed each used result's text whole. -/
theorem c2_context_budget_amended :
    (∀ (rB : CursorBack.PyStr → CursorBack.PyStr) (chunks : List CursorBack.PyStr)
        (L : ℕ), (CursorBack.combine_chunks rB chunks L).length ≤ L) ∧
    (∀ (rB : CursorBack.PyStr → CursorBack.PyStr) (chunks : List CursorBack.PyStr),
      CursorBack.combine_chunks rB chunks 0 = []) ∧
    (∀ (rB : CursorBack.PyStr → CursorBack.PyStr) (chunks : List CursorBack.PyStr)
        (L : ℕ), ∃ m, CursorBack.combine_chunks rB chunks L =
          CursorBack.pyStrip (CursorBack.joinSp
            (((chunks.map (CursorBack.clean_chunk_text rB)).filter
              (fun c => 50 ≤ c.length)).take m))) ∧
    (∀ (e : String → Vec) (I : List Vec) (C : List RagChunk) (thr : ℚ) (dk : ℕ)
        (q : String) (L : ℕ) (rs : List RagResult),
      RagSystem.search (some e) (some I) C thr dk q none = .ok rs →
        RagSystem.sumLen (RagSystem.contextLoop L 0 0 rs) ≤ L ∧
        RagSystem.get_context (some e) (some I) C thr dk q L =
          .ok (String.intercalate "\n\n" (RagSystem.contextLoop L 0 0 rs)) ∧
        (∃ m, RagSystem.contextLoop L 0 0 rs = (RagSystem.partsFrom 0 rs).take m) ∧
        RagSystem.get_context (some e) (some I) C thr dk q 0 = .ok "") := by
  refine ⟨?_, ?_, ?_, ?_⟩
  · intro rB chunks L
    exact le_trans (pyStrip_length_le _) (combineLoop_length_le rB L chunks [] (by simp))
  · intro rB chunks
    have h := le_trans (pyStrip_length_le _) (combineLoop_length_le rB 0 chunks [] (by simp))
    exact List.length_eq_zero.mp (Nat.le_zero.mp h)
  · intro rB chunks L
    obtain ⟨m, hm⟩ := combineLoop_join rB L chunks []
    exact ⟨m, by rw [CursorBack.combine_chunks, hm]; simp⟩
  · intro e I C thr dk q L rs h
    refine ⟨?_, ?_, contextLoop_take L rs 0 0, ?_⟩
    · rcases contextLoop_sum L rs 0 0 with h' | h'
      · rw [h']; simp [RagSystem.sumLen]
      · omega
    · unfold RagSystem.get_context
      rw [h]
      rfl
    · unfold RagSystem.get_context
      rw [h]
      simp only [Except.map]
      rw [contextLoop_budget_zero]
      rfl

/-- C2 witness: the counterexample corpus at budget 50 — the part
lengths sum to exactly 50 and `get_context` succeeds; at budget 0 the
context is empty; `combine_chunks` at budget 0 returns the empty
string. -/
theorem c2_context_budget_witness :
    RagSystem.search (some (fun _ => [(1:ℚ)])) (some [[(1:ℚ)], [(1:ℚ)]])
      [⟨"xxxxx", "p", "t", "s", []⟩, ⟨"xxxxx", "p", "t", "s", []⟩] 0 5 "q" none =
      .ok [⟨"xxxxx", 1, "p", "t", "s", []⟩, ⟨"xxxxx", 1, "p", "t", "s", []⟩] ∧
    RagSystem.sumLen (RagSystem.contextLoop 50 0 0
      [⟨"xxxxx", 1, "p", "t", "s", []⟩, ⟨"xxxxx", 1, "p", "t", "s", []⟩]) ≤ 50 ∧
    RagSystem.get_context (some (fun _ => [(1:ℚ)])) (some [[(1:ℚ)], [(1:ℚ)]])
      [⟨"xxxxx", "p", "t", "s", []⟩, ⟨"xxxxx", "p", "t", "s", []⟩] 0 5 "q" 0 = .ok "" ∧
    CursorBack.combine_chunks id [] 0 = [] :=
  have hs : RagSystem.search (some (fun _ => [(1:ℚ)])) (some [[(1:ℚ)], [(1:ℚ)]])
      [⟨"xxxxx", "p", "t", "s", []⟩, ⟨"xxxxx", "p", "t", "s", []⟩] 0 5 "q" none =
      .ok [⟨"xxxxx", 1, "p", "t", "s", []⟩, ⟨"xxxxx", 1, "p", "t", "s", []⟩] := by
    norm_num [RagSystem.search, RagSystem.ragLoop, faissSearch, faissHits, dot, idxPairsFrom,
      pyGet, List.insertionSort, List.orderedInsert, hitRel, negFltMax]
  ⟨hs,
   (c2_context_budget_amended.2.2.2 (fun _ => [(1:ℚ)]) [[(1:ℚ)], [(1:ℚ)]]
     [⟨"xxxxx", "p", "t", "s", []⟩, ⟨"xxxxx", "p", "t", "s", []⟩] 0 5 "q" 50
     [⟨"xxxxx", 1, "p", "t", "s", []⟩, ⟨"xxxxx", 1, "p", "t", "s", []⟩] hs).1,
   (c2_context_budget_amended.2.2.2 (fun _ => [(1:ℚ)]) [[(1:ℚ)], [(1:ℚ)]]
     [⟨"xxxxx", "p", "t", "s", []⟩, ⟨"xxxxx", "p", "t", "s", []⟩] 0 5 "q" 50
     [⟨"xxxxx", 1, "p", "t", "s", []⟩, ⟨"xxxxx", 1, "p", "t", "s", []⟩] hs).2.2.2,
   c2_context_budget_amended.2.1 id []⟩
